import Mathlib

/-!
# Verification of the SFTP-server resource-composition planner

Shallow embedding of `src/lib/aws-cdk-sftp-server-stack.ts` (the resource
planner: network ingress derivation, hostname/certificate selection,
per-user scoped policies, notification fan-out and archival wiring) and of
the host-key rotation handler (`src/unnamed/part_002`).

Conventions of the embedding:
* TypeScript truthiness on the optional string fields of the configuration
  (`customVpcId`, `zoneName`, `certificateArn`, ...) is modelled by
  comparison with the empty string, which is exactly what the source's
  `if (field)` checks test for string-typed options.
* External lookups (`Vpc.fromLookup`, CloudFormation-assigned names such as
  the server id, bucket names and the region) are inputs to the planner
  (`ResolvedVpc`, `Env`); the planner itself is a pure function from the
  configuration and those resolved values to either an error or a `Plan`.
* The two `throw new Error(...)` sites of the stack are mapped onto the
  specification's error taxonomy: the subnet check is the network-kind
  failure, the two configuration checks are config-kind failures.  The
  message strings are taken verbatim from the source.
-/

/-! ## Wildcard (StringLike) matching

AWS IAM `StringLike` condition semantics: `*` matches any sequence of
characters, `?` matches a single character, all other characters match
themselves.  Implemented with explicit fuel so that every application to
concrete data reduces inside the kernel; `globMatch` supplies sufficient
fuel. -/

def globMatchAux : Nat → List Char → List Char → Bool
  | 0, _, _ => false
  | _ + 1, [], s => s.isEmpty
  | fuel + 1, c :: ps, s =>
    if c == '*' then
      globMatchAux fuel ps s || (!s.isEmpty && globMatchAux fuel (c :: ps) s.tail)
    else
      match s with
      | [] => false
      | c2 :: s2 => (c == '?' || c == c2) && globMatchAux fuel ps s2

def globMatch (p s : List Char) : Bool :=
  globMatchAux (p.length + s.length + 1) p s

def stringLike (pat s : String) : Bool :=
  globMatch pat.toList s.toList

/-! ## Configuration data model (the shape destructured from `options`) -/

structure DnsAttr where
  zoneName : String
  hostedZoneId : String
deriving DecidableEq

structure CustomHostnameAttr where
  useCustomHostname : Bool
  dnsAttr : DnsAttr
  sftpHostname : String
  certificateArn : String
deriving DecidableEq

structure CustomHostKeyAttr where
  useCustomKey : Bool
  hostKeySecretArn : String
  hostKeyVersion : String
deriving DecidableEq

structure SftpAttr where
  allowCidrs : List String
  moveToArchive : Bool
deriving DecidableEq

structure VpcAttr where
  customVpcId : String
deriving DecidableEq

structure UserEntry where
  userName : String
  publicKey : String
deriving DecidableEq

structure Config where
  vpcAttr : VpcAttr
  sftpAttr : SftpAttr
  customHostKey : CustomHostKeyAttr
  customHostname : CustomHostnameAttr
  users : List UserEntry
  notificationEmails : List String
deriving DecidableEq

/-- Result of the external `Vpc.fromLookup` call. -/
structure ResolvedVpc where
  vpcId : String
  vpcCidrBlock : String
  publicSubnets : List String
deriving DecidableEq

/-- Provider-assigned identifiers the plan's strings are built from. -/
structure Env where
  region : String
  serverId : String
  sftpBucketName : String
  archiveBucketName : String
deriving DecidableEq

/-- The specification's error taxonomy, with the source's messages. -/
inductive PlanError where
  | networkError (msg : String)
  | configError (msg : String)
deriving DecidableEq

/-! ## Network ingress rules -/

inductive Peer where
  | ipv4 (cidr : String)
  | anyIpv4
deriving DecidableEq

structure IngressRule where
  peer : Peer
  tcpPort : Nat
  description : String
deriving DecidableEq

/-- Ingress derivation, from the `if (allowCidrs.length)` block of the
stack: one rule per allowed range plus an internal rule for the VPC's own
block, or a single open rule when the allow-list is empty. -/
def ingressRules (allowCidrs : List String) (vpcCidrBlock : String) : List IngressRule :=
  if allowCidrs.length != 0 then
    allowCidrs.map (fun cidr => IngressRule.mk (Peer.ipv4 cidr) 22 "allow external SFTP access")
      ++ [IngressRule.mk (Peer.ipv4 vpcCidrBlock) 22 "allow internal SFTP access"]
  else
    [IngressRule.mk Peer.anyIpv4 22 "allow public SFTP access"]

/-! ## Certificates, roles, subscriptions, grants -/

inductive Cert where
  | fromArn (arn : String)
  | requested (domainName : String) (validationZone : String)
deriving DecidableEq

inductive RoleId where
  | loggingRole
  | userRole
deriving DecidableEq

structure PolicyStmt where
  sid : String
  actions : List String
  resources : List String
deriving DecidableEq

structure RolePlan where
  id : RoleId
  statements : List PolicyStmt
deriving DecidableEq

inductive Subscriber where
  | email (addr : String)
  | lambdaFn (fnName : String)
deriving DecidableEq

def isLambdaSub : Subscriber → Bool
  | Subscriber.lambdaFn _ => true
  | Subscriber.email _ => false

inductive BucketRef where
  | sftpBucket
  | archiveBucket
deriving DecidableEq

/-- The two CDK grant calls issued for the archive function.  Per the CDK
collaborator contract, `grantPut` confers only object-write permissions and
`grantReadWrite` confers both read and write permissions on the bucket. -/
inductive GrantAccess where
  | put
  | readWrite
deriving DecidableEq

def accessAllowsRead : GrantAccess → Bool
  | GrantAccess.put => false
  | GrantAccess.readWrite => true

def accessAllowsWrite : GrantAccess → Bool
  | GrantAccess.put => true
  | GrantAccess.readWrite => true

structure Grant where
  bucket : BucketRef
  access : GrantAccess
deriving DecidableEq

/-! ## The per-user session policy template

The stack attaches one literal policy string to every `CfnUser`; AWS
Transfer substitutes the `transfer:HomeBucket` / `transfer:UserName` /
`transfer:HomeDirectory` variables per session.  The template is embedded
structurally (the parse of the JSON string at lines 268-297 of the stack),
with substitution points as tokens. -/

inductive TToken where
  | lit (s : String)
  | homeBucketVar
  | userNameVar
  | homeDirectoryVar
deriving DecidableEq

abbrev TStr := List TToken

structure SessionStmt where
  sid : String
  actions : List String
  resource : TStr
  listConditions : Option (List TStr)
deriving DecidableEq

def sessionPolicyTemplate : List SessionStmt :=
  [ { sid := "AllowListingOfUserFolder"
    , actions := ["s3:ListBucket"]
    , resource := [TToken.lit "arn:aws:s3:::", TToken.homeBucketVar]
    , listConditions := some
        [ [TToken.lit "home/", TToken.userNameVar, TToken.lit "/*"]
        , [TToken.lit "home/", TToken.userNameVar] ] }
  , { sid := "HomeDirObjectAccess"
    , actions := ["s3:PutObject", "s3:GetObject", "s3:GetObjectVersion"]
    , resource := [TToken.lit "arn:aws:s3:::", TToken.homeDirectoryVar, TToken.lit "*"]
    , listConditions := none } ]

/-- The values AWS Transfer substitutes for a session. -/
structure TransferCtx where
  homeBucket : String
  userName : String
  homeDirectory : String
deriving DecidableEq

def substT (ctx : TransferCtx) : TStr → String
  | [] => ""
  | TToken.lit s :: ts => s ++ substT ctx ts
  | TToken.homeBucketVar :: ts => ctx.homeBucket ++ substT ctx ts
  | TToken.userNameVar :: ts => ctx.userName ++ substT ctx ts
  | TToken.homeDirectoryVar :: ts => ctx.homeDirectory ++ substT ctx ts

/-- Home path convention of the stack: `/<bucket-name>/home/<user-name>`. -/
def homeDirectory (bucketName userName : String) : String :=
  "/" ++ bucketName ++ "/home/" ++ userName

/-- The substitution context for a user of this stack: the home bucket is
the SFTP bucket and the home directory follows the fixed convention. -/
def userTransferCtx (bucketName userName : String) : TransferCtx :=
  TransferCtx.mk bucketName userName (homeDirectory bucketName userName)

/-- A statement permits an `s3:ListBucket` call on `bucketArn` with prefix
parameter `pfx` when it carries the action, its resource matches the bucket
and its `s3:prefix` StringLike condition (if any) matches the prefix. -/
def stmtMatchesList (ctx : TransferCtx) (st : SessionStmt) (bucketArn pfx : String) : Bool :=
  st.actions.contains "s3:ListBucket" && stringLike (substT ctx st.resource) bucketArn &&
    (match st.listConditions with
     | none => true
     | some pats => pats.any (fun pt => stringLike (substT ctx pt) pfx))

def listingAllowed (ctx : TransferCtx) (bucketArn pfx : String) : Bool :=
  sessionPolicyTemplate.any (fun st => stmtMatchesList ctx st bucketArn pfx)

/-- A statement permits an object action on `arn` when it carries the
action and its resource pattern matches; statements conditioned on
`s3:prefix` do not apply to object requests (no such context key). -/
def stmtMatchesObject (ctx : TransferCtx) (st : SessionStmt) (action arn : String) : Bool :=
  st.actions.contains action && st.listConditions.isNone &&
    stringLike (substT ctx st.resource) arn

def objectActionAllowed (ctx : TransferCtx) (action arn : String) : Bool :=
  sessionPolicyTemplate.any (fun st => stmtMatchesObject ctx st action arn)

/-- A name with no wildcard metacharacter and no path separator. -/
def cleanName (s : String) : Prop :=
  ∀ c ∈ s.toList, c ≠ '*' ∧ c ≠ '?' ∧ c ≠ '/'

instance (s : String) : Decidable (cleanName s) := by
  unfold cleanName; infer_instance

/-! ## The plan -/

structure CnameRec where
  recordName : String
  targetDomainName : String
  zoneName : String
deriving DecidableEq

structure PlannedUser where
  userName : String
  role : RoleId
  homeDirectory : String
  sshPublicKeys : List String
  policy : List SessionStmt
deriving DecidableEq

structure Plan where
  ingress : List IngressRule
  subnetIds : List String
  certificate : Option Cert
  serverId : String
  domainNameOutput : String
  cnameRecord : Option CnameRec
  customHostnameOutput : Option String
  sftpBucketName : String
  userRole : RolePlan
  users : List PlannedUser
  archiveBucketName : Option String
  topicSubscriptions : List Subscriber
  archiveGrants : List Grant
deriving DecidableEq

/-- The resource graph emitted on a successful run, field by field from the
constructor body of `AwsCdkSftpServerStack`. -/
def mkPlan (cfg : Config) (vpc : ResolvedVpc) (env : Env) : Plan :=
  let zoneName := cfg.customHostname.dnsAttr.zoneName
  let domainName := env.serverId ++ ".server.transfer." ++ env.region ++ ".amazonaws.com"
  let sftpDomainName := cfg.customHostname.sftpHostname ++ "." ++ zoneName
  { ingress := ingressRules cfg.sftpAttr.allowCidrs vpc.vpcCidrBlock
  , subnetIds := vpc.publicSubnets
  , certificate :=
      if cfg.customHostname.useCustomHostname then
        some (if cfg.customHostname.certificateArn != "" then
                Cert.fromArn cfg.customHostname.certificateArn
              else
                Cert.requested ("*." ++ zoneName) zoneName)
      else none
  , serverId := env.serverId
  , domainNameOutput := domainName
  , cnameRecord :=
      if cfg.customHostname.useCustomHostname then
        some (CnameRec.mk sftpDomainName domainName zoneName)
      else none
  , customHostnameOutput :=
      if cfg.customHostname.useCustomHostname then some sftpDomainName else none
  , sftpBucketName := env.sftpBucketName
  , userRole := RolePlan.mk RoleId.userRole
      [ PolicyStmt.mk "List" ["s3:ListBucket"] ["*"]
      , PolicyStmt.mk "UserObjects" ["s3:PutObject", "s3:GetObject", "s3:GetObjectVersion"]
          ["arn:aws:s3:::" ++ env.sftpBucketName ++ "/*"] ]
  , users := cfg.users.map (fun u =>
      PlannedUser.mk u.userName RoleId.userRole
        (homeDirectory env.sftpBucketName u.userName) [u.publicKey] sessionPolicyTemplate)
  , archiveBucketName :=
      if cfg.sftpAttr.moveToArchive then some env.archiveBucketName else none
  , topicSubscriptions :=
      cfg.notificationEmails.map Subscriber.email ++
        (if cfg.sftpAttr.moveToArchive then [Subscriber.lambdaFn "archiveFnc"] else [])
  , archiveGrants :=
      if cfg.sftpAttr.moveToArchive then
        [ Grant.mk BucketRef.archiveBucket GrantAccess.put
        , Grant.mk BucketRef.sftpBucket GrantAccess.readWrite ]
      else [] }

/-- The planner, in source statement order: subnet enumeration check
(line 102), custom-hostname validation (line 111), host-key secret check
(line 200), then the emitted resources. -/
def plan (cfg : Config) (vpc : ResolvedVpc) (env : Env) : Except PlanError Plan :=
  if vpc.publicSubnets.length == 0 then
    Except.error (PlanError.networkError "One public subnet is required")
  else if cfg.customHostname.useCustomHostname &&
      (cfg.customHostname.dnsAttr.zoneName == "" ||
        cfg.customHostname.dnsAttr.hostedZoneId == "" ||
        cfg.customHostname.sftpHostname == "") then
    Except.error (PlanError.configError
      "zoneName, hostedZoneId, sftpHostname are required to use a custom hostname")
  else if cfg.customHostKey.useCustomKey && cfg.customHostKey.hostKeySecretArn == "" then
    Except.error (PlanError.configError
      "hostKeySecretArn must be provided when importing a custom host key")
  else
    Except.ok (mkPlan cfg vpc env)

/-! ## The host-key rotation handler (`src/unnamed/part_002`) -/

structure HKEvent where
  RequestType : String
  PhysicalResourceId : String
  RequestId : String
  serverId : String
  hostKeySecretArn : String
  hostKeyVersion : String
deriving DecidableEq

structure HKResult where
  PhysicalResourceId : String
  secretsRead : List String
  serverUpdates : List (String × String)
deriving DecidableEq

/-- The handler, with the external `getSecretValue` and base64 decoding as
function parameters; `secretsRead` and `serverUpdates` record the side
effects it performed. -/
def hkHandler (getSecret decodeB64 : String → String) (ev : HKEvent) : Except String HKResult :=
  if !(["Create", "Update", "Delete"].contains ev.RequestType) then
    Except.error "Invalid RequestType"
  else if ev.RequestType == "Delete" then
    Except.ok (HKResult.mk ev.PhysicalResourceId [] [])
  else if ev.serverId == "" then
    Except.error "Missing serverId"
  else if ev.hostKeySecretArn == "" then
    Except.error "Missing hostKeySecretArn"
  else
    let key := decodeB64 (getSecret ev.hostKeySecretArn)
    Except.ok (HKResult.mk
      (if ev.RequestType == "Create" then ev.RequestId else ev.PhysicalResourceId)
      [ev.hostKeySecretArn] [(ev.serverId, key)])

/-! ## Concrete instances used by witnesses and counterexamples -/

def cfgBase : Config :=
  { vpcAttr := VpcAttr.mk ""
  , sftpAttr := SftpAttr.mk ["10.0.0.0/24"] true
  , customHostKey := CustomHostKeyAttr.mk false "" ""
  , customHostname := CustomHostnameAttr.mk true (DnsAttr.mk "example.com" "Z123") "sftp" ""
  , users := [UserEntry.mk "ali" "ssh-rsa AAA", UserEntry.mk "alice" "ssh-rsa BBB"]
  , notificationEmails := ["ops@example.com"] }

def vpcBase : ResolvedVpc := ResolvedVpc.mk "vpc-1" "172.31.0.0/16" ["subnet-1"]

def vpcEmpty : ResolvedVpc := ResolvedVpc.mk "vpc-1" "172.31.0.0/16" []

def envBase : Env := Env.mk "us-east-1" "s-123" "bkt" "arch"

def planBase : Plan :=
  { ingress :=
      [ IngressRule.mk (Peer.ipv4 "10.0.0.0/24") 22 "allow external SFTP access"
      , IngressRule.mk (Peer.ipv4 "172.31.0.0/16") 22 "allow internal SFTP access" ]
  , subnetIds := ["subnet-1"]
  , certificate := some (Cert.requested "*.example.com" "example.com")
  , serverId := "s-123"
  , domainNameOutput := "s-123.server.transfer.us-east-1.amazonaws.com"
  , cnameRecord := some (CnameRec.mk "sftp.example.com"
      "s-123.server.transfer.us-east-1.amazonaws.com" "example.com")
  , customHostnameOutput := some "sftp.example.com"
  , sftpBucketName := "bkt"
  , userRole := RolePlan.mk RoleId.userRole
      [ PolicyStmt.mk "List" ["s3:ListBucket"] ["*"]
      , PolicyStmt.mk "UserObjects" ["s3:PutObject", "s3:GetObject", "s3:GetObjectVersion"]
          ["arn:aws:s3:::bkt/*"] ]
  , users :=
      [ PlannedUser.mk "ali" RoleId.userRole "/bkt/home/ali" ["ssh-rsa AAA"] sessionPolicyTemplate
      , PlannedUser.mk "alice" RoleId.userRole "/bkt/home/alice" ["ssh-rsa BBB"] sessionPolicyTemplate ]
  , archiveBucketName := some "arch"
  , topicSubscriptions := [Subscriber.email "ops@example.com", Subscriber.lambdaFn "archiveFnc"]
  , archiveGrants :=
      [ Grant.mk BucketRef.archiveBucket GrantAccess.put
      , Grant.mk BucketRef.sftpBucket GrantAccess.readWrite ] }

theorem planBase_ok : plan cfgBase vpcBase envBase = Except.ok planBase := by
  rfl

/-! ## Helper lemmas: strings and wildcard matching -/

theorem string_toList_inj {a b : String} (h : a.toList = b.toList) : a = b := by
  cases a; cases b; exact congrArg String.mk h

theorem toList_append (a b : String) : (a ++ b).toList = a.toList ++ b.toList := by
  simp

theorem aux_nil_eq (f : Nat) (s : List Char) : globMatchAux (f + 1) [] s = s.isEmpty := rfl

theorem aux_star_eq (f : Nat) (ps s : List Char) :
    globMatchAux (f + 1) ('*' :: ps) s =
      (globMatchAux f ps s || (!s.isEmpty && globMatchAux f ('*' :: ps) s.tail)) := by
  simp [globMatchAux]

theorem aux_lit_nil_eq (f : Nat) (c : Char) (ps : List Char) (hc : c ≠ '*') :
    globMatchAux (f + 1) (c :: ps) [] = false := by
  simp [globMatchAux, hc]

theorem aux_lit_cons_eq (f : Nat) (c : Char) (ps : List Char) (c2 : Char) (s2 : List Char)
    (hc : c ≠ '*') :
    globMatchAux (f + 1) (c :: ps) (c2 :: s2) =
      ((c == '?' || c == c2) && globMatchAux f ps s2) := by
  simp [globMatchAux, hc]

theorem globMatchAux_congr (f1 : Nat) : ∀ (f2 : Nat) (p s : List Char),
    p.length + s.length < f1 → p.length + s.length < f2 →
    globMatchAux f1 p s = globMatchAux f2 p s := by
  induction f1 with
  | zero => intro f2 p s h1 _; exact absurd h1 (Nat.not_lt_zero _)
  | succ f ih =>
    intro f2 p s h1 h2
    cases f2 with
    | zero => exact absurd h2 (Nat.not_lt_zero _)
    | succ g =>
      cases p with
      | nil => rfl
      | cons c ps =>
        by_cases hc : c = '*'
        · subst hc
          rw [aux_star_eq, aux_star_eq]
          cases s with
          | nil =>
            simp only [List.isEmpty_nil, Bool.not_true, Bool.false_and, Bool.or_false]
            rw [ih g ps [] (by simp at h1 ⊢; omega) (by simp at h2 ⊢; omega)]
          | cons c2 s2 =>
            simp only [List.isEmpty_cons, List.tail_cons, Bool.not_false, Bool.true_and]
            rw [ih g ps (c2 :: s2) (by simp at h1 ⊢; omega) (by simp at h2 ⊢; omega),
              ih g ('*' :: ps) s2 (by simp at h1 ⊢; omega) (by simp at h2 ⊢; omega)]
        · cases s with
          | nil => rw [aux_lit_nil_eq f c ps hc, aux_lit_nil_eq g c ps hc]
          | cons c2 s2 =>
            rw [aux_lit_cons_eq f c ps c2 s2 hc, aux_lit_cons_eq g c ps c2 s2 hc,
              ih g ps s2 (by simp at h1 ⊢; omega) (by simp at h2 ⊢; omega)]

theorem auxStarAny (f : Nat) : ∀ (s : List Char), s.length + 1 < f →
    globMatchAux f ['*'] s = true := by
  induction f with
  | zero => intro s h; exact absurd h (Nat.not_lt_zero _)
  | succ g ih =>
    intro s h
    rw [aux_star_eq]
    cases s with
    | nil =>
      cases g with
      | zero => simp at h
      | succ g2 => simp [aux_nil_eq]
    | cons c2 s2 =>
      have h2 : globMatchAux g ['*'] s2 = true := ih s2 (by simp at h ⊢; omega)
      simp [h2]

theorem auxLiteral (f : Nat) : ∀ (p s : List Char), p.length + s.length < f →
    (∀ c ∈ p, c ≠ '*' ∧ c ≠ '?') → (globMatchAux f p s = true ↔ p = s) := by
  induction f with
  | zero => intro p s h _; exact absurd h (Nat.not_lt_zero _)
  | succ g ih =>
    intro p s h hp
    cases p with
    | nil =>
      rw [aux_nil_eq]
      cases s with
      | nil => simp
      | cons c2 s2 => simp
    | cons c ps =>
      have hcs := hp c (List.mem_cons_self c ps)
      cases s with
      | nil =>
        rw [aux_lit_nil_eq g c ps hcs.1]
        simp
      | cons c2 s2 =>
        rw [aux_lit_cons_eq g c ps c2 s2 hcs.1]
        have hq : (c == '?') = false := by simp [hcs.2]
        rw [hq]
        have hrec := ih ps s2 (by simp at h ⊢; omega)
          (fun d hd => hp d (List.mem_cons_of_mem c hd))
        simp only [Bool.false_or, Bool.and_eq_true, beq_iff_eq, List.cons.injEq]
        rw [hrec]

theorem auxLitStar (f : Nat) : ∀ (p s : List Char), (p ++ ['*']).length + s.length < f →
    (∀ c ∈ p, c ≠ '*' ∧ c ≠ '?') → (globMatchAux f (p ++ ['*']) s = true ↔ p <+: s) := by
  induction f with
  | zero => intro p s h _; exact absurd h (Nat.not_lt_zero _)
  | succ g ih =>
    intro p s h hp
    cases p with
    | nil =>
      simp only [List.nil_append]
      have hs : globMatchAux (g + 1) ['*'] s = true :=
        auxStarAny (g + 1) s (by simp at h ⊢; omega)
      simp [hs, List.nil_prefix]
    | cons c ps =>
      have hcs := hp c (List.mem_cons_self c ps)
      rw [List.cons_append]
      cases s with
      | nil =>
        rw [aux_lit_nil_eq g c _ hcs.1]
        simp
      | cons c2 s2 =>
        rw [aux_lit_cons_eq g c _ c2 s2 hcs.1]
        have hq : (c == '?') = false := by simp [hcs.2]
        rw [hq]
        have hrec := ih ps s2 (by simp at h ⊢; omega)
          (fun d hd => hp d (List.mem_cons_of_mem c hd))
        simp only [Bool.false_or, Bool.and_eq_true, beq_iff_eq, List.cons_prefix_cons]
        rw [hrec]

theorem globMatch_literal {p s : List Char} (hp : ∀ c ∈ p, c ≠ '*' ∧ c ≠ '?') :
    globMatch p s = true ↔ p = s :=
  auxLiteral (p.length + s.length + 1) p s (by omega) hp

theorem globMatch_litStar {p s : List Char} (hp : ∀ c ∈ p, c ≠ '*' ∧ c ≠ '?') :
    globMatch (p ++ ['*']) s = true ↔ p <+: s := by
  unfold globMatch
  exact auxLitStar ((p ++ ['*']).length + s.length + 1) p s (by omega) hp

theorem noSlashPrefixEq : ∀ (u v s : List Char), '/' ∉ u → '/' ∉ v →
    (u ++ ['/'] <+: v ++ '/' :: s) → u = v := by
  intro u
  induction u with
  | nil =>
    intro v s _ hv h
    cases v with
    | nil => rfl
    | cons c v2 =>
      exfalso
      simp only [List.nil_append, List.cons_append] at h
      have := (List.cons_prefix_cons.mp h).1
      exact hv (this ▸ List.mem_cons_self c v2)
  | cons c u2 ih =>
    intro v s hu hv h
    cases v with
    | nil =>
      exfalso
      simp only [List.cons_append, List.nil_append] at h
      have := (List.cons_prefix_cons.mp h).1
      exact hu (this ▸ List.mem_cons_self c u2)
    | cons c2 v2 =>
      simp only [List.cons_append] at h
      obtain ⟨hce, hrest⟩ := List.cons_prefix_cons.mp h
      have h2 := ih v2 s (fun hm => hu (List.mem_cons_of_mem c hm))
        (fun hm => hv (List.mem_cons_of_mem c2 hm)) hrest
      rw [hce, h2]

theorem noSlashPrefixOf {u v k : List Char} (hu : '/' ∉ u)
    (h : u <+: v ++ '/' :: k) : u <+: v := by
  rcases le_or_lt u.length v.length with hle | hlt
  · exact List.prefix_of_prefix_length_le h (List.prefix_append v ('/' :: k)) hle
  · exfalso
    have hvk : v ++ ['/'] <+: v ++ '/' :: k := by
      rw [ List.prefix_append_right_inj]
      exact List.cons_prefix_cons.mpr ⟨rfl, List.nil_prefix⟩
    have hvu : v ++ ['/'] <+: u := by
      apply List.prefix_of_prefix_length_le hvk h
      simp; omega
    exact hu (hvu.subset (by simp))

theorem cleanName_literal {s : String} (h : cleanName s) :
    ∀ c ∈ s.toList, c ≠ '*' ∧ c ≠ '?' :=
  fun c hc => ⟨(h c hc).1, (h c hc).2.1⟩

theorem cleanName_noSlash {s : String} (h : cleanName s) : '/' ∉ s.toList :=
  fun hm => (h '/' hm).2.2 rfl

theorem literal_append {p q : List Char} (hp : ∀ c ∈ p, c ≠ '*' ∧ c ≠ '?')
    (hq : ∀ c ∈ q, c ≠ '*' ∧ c ≠ '?') : ∀ c ∈ p ++ q, c ≠ '*' ∧ c ≠ '?' := by
  intro c hc
  rcases List.mem_append.mp hc with hm | hm
  · exact hp c hm
  · exact hq c hm

instance {ε α : Type} [DecidableEq ε] [DecidableEq α] : DecidableEq (Except ε α) := fun a b =>
  match a, b with
  | Except.error x, Except.error y =>
    if h : x = y then isTrue (by rw [h]) else
      isFalse (fun hc => h (by injection hc))
  | Except.ok x, Except.ok y =>
    if h : x = y then isTrue (by rw [h]) else
      isFalse (fun hc => h (by injection hc))
  | Except.error _, Except.ok _ => isFalse (fun hc => Except.noConfusion hc)
  | Except.ok _, Except.error _ => isFalse (fun hc => Except.noConfusion hc)

/-- Elimination for successful planning runs: the emitted plan is exactly
`mkPlan` of the inputs. -/
theorem plan_ok_elim {cfg : Config} {vpc : ResolvedVpc} {env : Env} {p : Plan}
    (h : plan cfg vpc env = Except.ok p) : p = mkPlan cfg vpc env := by
  unfold plan at h
  split at h
  · exact absurd h (by simp)
  · split at h
    · exact absurd h (by simp)
    · split at h
      · exact absurd h (by simp)
      · injection h with h2
        exact h2.symm

/-! ## Further concrete instances -/

def cfgNoArch : Config :=
  { cfgBase with sftpAttr := SftpAttr.mk ["10.0.0.0/24"] false }

def cfgArn : Config :=
  { cfgBase with customHostname :=
      (CustomHostnameAttr.mk true (DnsAttr.mk "example.com" "Z123") "sftp"
        "arn:aws:acm:us-east-1:111122223333:certificate/abc") }

def cfgNoHost : Config :=
  { cfgBase with customHostname :=
      CustomHostnameAttr.mk false (DnsAttr.mk "" "") "" "" }

def cfgNoZone : Config :=
  { cfgBase with customHostname :=
      CustomHostnameAttr.mk true (DnsAttr.mk "" "Z123") "sftp" "" }

/-! ## Claims -/

/-- C2: for every non-empty allow-list of N address ranges the derived
ingress rule set has exactly N+1 rules on TCP port 22 — one per listed
range plus one permitting the resolved network's own address block; for an
empty allow-list it is exactly one rule permitting all IPv4 addresses on
TCP port 22; and a successful plan's security group carries exactly this
derived rule set. -/
theorem C2_ingress (cidrs : List String) (vpcCidr : String) (cfg : Config)
    (vpc : ResolvedVpc) (env : Env) (p : Plan) :
    (cidrs ≠ [] →
      ingressRules cidrs vpcCidr =
        cidrs.map (fun c => IngressRule.mk (Peer.ipv4 c) 22 "allow external SFTP access") ++
          [IngressRule.mk (Peer.ipv4 vpcCidr) 22 "allow internal SFTP access"] ∧
      (ingressRules cidrs vpcCidr).length = cidrs.length + 1) ∧
    (cidrs = [] →
      ingressRules cidrs vpcCidr = [IngressRule.mk Peer.anyIpv4 22 "allow public SFTP access"]) ∧
    (∀ r ∈ ingressRules cidrs vpcCidr, r.tcpPort = 22) ∧
    (plan cfg vpc env = Except.ok p →
      p.ingress = ingressRules cfg.sftpAttr.allowCidrs vpc.vpcCidrBlock) := by
  refine ⟨?_, ?_, ?_, ?_⟩
  · intro hne
    have hlen : (cidrs.length != 0) = true := by
      simp [List.length_eq_zero]
      exact hne
    constructor
    · unfold ingressRules
      rw [if_pos hlen]
    · unfold ingressRules
      rw [if_pos hlen]
      simp
  · intro he
    subst he
    rfl
  · intro r hr
    unfold ingressRules at hr
    split at hr
    · rcases List.mem_append.mp hr with hm | hm
      · obtain ⟨c, _, rfl⟩ := List.mem_map.mp hm
        rfl
      · simp at hm
        rw [hm]
    · simp at hr
      rw [hr]
  · intro h
    rw [plan_ok_elim h]
    rfl

/-- C2 witness at a one-element allow-list, an empty allow-list and a
successful plan. -/
theorem C2_ingress_witness :
    ingressRules ["10.0.0.0/24"] "172.31.0.0/16" =
      [ IngressRule.mk (Peer.ipv4 "10.0.0.0/24") 22 "allow external SFTP access"
      , IngressRule.mk (Peer.ipv4 "172.31.0.0/16") 22 "allow internal SFTP access" ] ∧
    (ingressRules ["10.0.0.0/24"] "172.31.0.0/16").length = 1 + 1 ∧
    ingressRules [] "172.31.0.0/16" = [IngressRule.mk Peer.anyIpv4 22 "allow public SFTP access"] ∧
    planBase.ingress = ingressRules cfgBase.sftpAttr.allowCidrs vpcBase.vpcCidrBlock := by
  have h1 := (C2_ingress ["10.0.0.0/24"] "172.31.0.0/16" cfgBase vpcBase envBase planBase).1
    (by decide)
  have h2 := (C2_ingress [] "172.31.0.0/16" cfgBase vpcBase envBase planBase).2.1 rfl
  have h4 := (C2_ingress ["10.0.0.0/24"] "172.31.0.0/16" cfgBase vpcBase envBase planBase).2.2.2
    planBase_ok
  exact ⟨by simpa using h1.1, by simpa using h1.2, h2, h4⟩

/-- C5 (amended): an empty subnet enumeration makes planning fail with the
network error — whose message in the source is 'One public subnet is
required' — and no plan (hence no service identity) is produced. -/
theorem C5_no_subnets (cfg : Config) (vpc : ResolvedVpc) (env : Env)
    (h : vpc.publicSubnets = []) :
    plan cfg vpc env =
      Except.error (PlanError.networkError "One public subnet is required") := by
  simp [plan, h]

/-- C5 witness at a concrete configuration and subnet-less network. -/
theorem C5_no_subnets_witness :
    plan cfgBase vpcEmpty envBase =
      Except.error (PlanError.networkError "One public subnet is required") :=
  C5_no_subnets cfgBase vpcEmpty envBase rfl

/-- C5 counterexample to the claim as stated: the network failure carries
the source's message 'One public subnet is required', not the claimed
'no public subnet available'. -/
theorem C5_cex :
    plan cfgBase vpcEmpty envBase =
      Except.error (PlanError.networkError "One public subnet is required") ∧
    plan cfgBase vpcEmpty envBase ≠
      Except.error (PlanError.networkError "no public subnet available") := by
  exact ⟨rfl, by decide⟩

/-- C4 (amended): with custom-hostname mode enabled and any of zone name,
zone id or hostname label missing, planning fails with the ConfigError
'zoneName, hostedZoneId, sftpHostname are required to use a custom
hostname' and no resource is planned — provided the resolved network has
at least one public subnet, since the vpc lookup and subnet check run
before the hostname validation. -/
theorem C4_hostname_validation (cfg : Config) (vpc : ResolvedVpc) (env : Env)
    (hOn : cfg.customHostname.useCustomHostname = true)
    (hMiss : cfg.customHostname.dnsAttr.zoneName = "" ∨
      cfg.customHostname.dnsAttr.hostedZoneId = "" ∨ cfg.customHostname.sftpHostname = "")
    (hSub : vpc.publicSubnets ≠ []) :
    plan cfg vpc env = Except.error (PlanError.configError
      "zoneName, hostedZoneId, sftpHostname are required to use a custom hostname") := by
  have h1 : vpc.publicSubnets.length ≠ 0 := fun h0 => hSub (List.length_eq_zero.mp h0)
  rcases hMiss with h | h | h <;> simp [plan, h1, hOn, h]

/-- C4 witness: custom hostname requested with an empty zone name on a
network with one subnet. -/
theorem C4_hostname_validation_witness :
    plan cfgNoZone vpcBase envBase = Except.error (PlanError.configError
      "zoneName, hostedZoneId, sftpHostname are required to use a custom hostname") :=
  C4_hostname_validation cfgNoZone vpcBase envBase rfl (Or.inl rfl) (by decide)

/-- C4 counterexample to the claim as stated: the same incomplete
custom-hostname configuration, paired with a network resolving no subnet,
fails with the network error instead — so the hostname ConfigError is not
raised before network resolution. -/
theorem C4_cex :
    plan cfgNoZone vpcEmpty envBase =
      Except.error (PlanError.networkError "One public subnet is required") ∧
    plan cfgNoZone vpcEmpty envBase ≠
      Except.error (PlanError.configError
        "zoneName, hostedZoneId, sftpHostname are required to use a custom hostname") := by
  exact ⟨rfl, by decide⟩

/-- C8 (amended): for every event the host-key rotation handler returns
{PhysicalResourceId} on RequestType 'Delete' immediately, reading no
secret and issuing no server update; for Create and Update events a
missing (empty) serverId fails with 'Missing serverId' and a missing
hostKeySecretArn fails with 'Missing hostKeySecretArn' — the missing-field
checks are reached only after the Delete branch. -/
theorem C8_delete_and_missing (getSecret decodeB64 : String → String) (ev : HKEvent) :
    (ev.RequestType = "Delete" →
      hkHandler getSecret decodeB64 ev = Except.ok (HKResult.mk ev.PhysicalResourceId [] [])) ∧
    (ev.RequestType = "Create" ∨ ev.RequestType = "Update" →
      (ev.serverId = "" → hkHandler getSecret decodeB64 ev = Except.error "Missing serverId") ∧
      (ev.serverId ≠ "" → ev.hostKeySecretArn = "" →
        hkHandler getSecret decodeB64 ev = Except.error "Missing hostKeySecretArn")) := by
  constructor
  · intro hd
    simp [hkHandler, List.contains, hd]
  · intro ht
    constructor
    · intro hs
      rcases ht with h | h <;> simp [hkHandler, List.contains, h, hs]
    · intro hs hk
      rcases ht with h | h <;> simp [hkHandler, List.contains, h, hs, hk]

/-- C8 witness: a Delete event with full fields, a Create event missing
its serverId, an Update event missing its secret reference. -/
theorem C8_delete_and_missing_witness :
    hkHandler id id (HKEvent.mk "Delete" "pid" "rid" "s-1" "arn-1" "v1") =
      Except.ok (HKResult.mk "pid" [] []) ∧
    hkHandler id id (HKEvent.mk "Create" "pid" "rid" "" "arn-1" "v1") =
      Except.error "Missing serverId" ∧
    hkHandler id id (HKEvent.mk "Update" "pid" "rid" "s-1" "" "v1") =
      Except.error "Missing hostKeySecretArn" := by
  refine ⟨?_, ?_, ?_⟩
  · exact (C8_delete_and_missing id id (HKEvent.mk "Delete" "pid" "rid" "s-1" "arn-1" "v1")).1 rfl
  · exact ((C8_delete_and_missing id id
      (HKEvent.mk "Create" "pid" "rid" "" "arn-1" "v1")).2 (Or.inl rfl)).1 rfl
  · exact ((C8_delete_and_missing id id
      (HKEvent.mk "Update" "pid" "rid" "s-1" "" "v1")).2 (Or.inr rfl)).2 (by decide) rfl

/-- C8 counterexample to the claim as stated: a Delete event whose
serverId and hostKeySecretArn are both empty still succeeds with
{PhysicalResourceId} — it does not fail with a descriptive error. -/
theorem C8_cex :
    hkHandler id id (HKEvent.mk "Delete" "pid-1" "req-1" "" "" "") =
      Except.ok (HKResult.mk "pid-1" [] []) ∧
    (HKEvent.mk "Delete" "pid-1" "req-1" "" "" "").serverId = "" := by
  exact ⟨rfl, rfl⟩

/-- C9: the Delete branch of the host-key handler is evaluated before the
missing-field checks — every Delete event returns {PhysicalResourceId}
successfully even with empty serverId or hostKeySecretArn; the
missing-field errors can only arise for Create and Update events; and a
RequestType outside Create, Update, Delete always fails with
'Invalid RequestType'. -/
theorem C9_delete_before_checks (getSecret decodeB64 : String → String) (ev : HKEvent) :
    (ev.RequestType = "Delete" →
      hkHandler getSecret decodeB64 ev = Except.ok (HKResult.mk ev.PhysicalResourceId [] [])) ∧
    (ev.RequestType ≠ "Create" → ev.RequestType ≠ "Update" → ev.RequestType ≠ "Delete" →
      hkHandler getSecret decodeB64 ev = Except.error "Invalid RequestType") ∧
    (hkHandler getSecret decodeB64 ev = Except.error "Missing serverId" ∨
      hkHandler getSecret decodeB64 ev = Except.error "Missing hostKeySecretArn" →
      ev.RequestType = "Create" ∨ ev.RequestType = "Update") := by
  refine ⟨?_, ?_, ?_⟩
  · intro hd
    simp [hkHandler, List.contains, hd]
  · intro h1 h2 h3
    simp [hkHandler, List.contains, h1, h2, h3]
  · intro hor
    by_cases h1 : ev.RequestType = "Create"
    · exact Or.inl h1
    · by_cases h2 : ev.RequestType = "Update"
      · exact Or.inr h2
      · exfalso
        by_cases h3 : ev.RequestType = "Delete"
        · have hdel : hkHandler getSecret decodeB64 ev =
              Except.ok (HKResult.mk ev.PhysicalResourceId [] []) := by
            simp [hkHandler, List.contains, h3]
          rcases hor with hc | hc <;> rw [hdel] at hc <;> exact Except.noConfusion hc
        · have hinv : hkHandler getSecret decodeB64 ev = Except.error "Invalid RequestType" := by
            simp [hkHandler, List.contains, h1, h2, h3]
          rcases hor with hc | hc <;> rw [hinv] at hc <;>
            · injection hc with hmsg
              exact absurd hmsg (by decide)

theorem filter_email_map (es : List String) :
    (es.map Subscriber.email).filter isLambdaSub = [] := by
  induction es with
  | nil => rfl
  | cons e es ih => simp [isLambdaSub, ih]

/-- C3 (amended): with the archive flag set, the notification fan-out has
exactly one dynamic (archival-handler) subscriber and the archival
handler's grants are put-only (write, no read) on the archive bucket and
read-write on the primary bucket — not read-only on the primary; with the
flag unset, no archive bucket and no dynamic subscriber exist. -/
theorem C3_archive (cfg : Config) (vpc : ResolvedVpc) (env : Env) (p : Plan)
    (h : plan cfg vpc env = Except.ok p) :
    (cfg.sftpAttr.moveToArchive = true →
      p.topicSubscriptions.filter isLambdaSub = [Subscriber.lambdaFn "archiveFnc"] ∧
      p.archiveBucketName = some env.archiveBucketName ∧
      p.archiveGrants =
        [ Grant.mk BucketRef.archiveBucket GrantAccess.put
        , Grant.mk BucketRef.sftpBucket GrantAccess.readWrite ] ∧
      accessAllowsWrite GrantAccess.put = true ∧ accessAllowsRead GrantAccess.put = false) ∧
    (cfg.sftpAttr.moveToArchive = false →
      p.topicSubscriptions.filter isLambdaSub = [] ∧
      p.archiveBucketName = none ∧ p.archiveGrants = []) := by
  rw [plan_ok_elim h]
  constructor
  · intro hm
    refine ⟨?_, ?_, ?_, rfl, rfl⟩
    · simp [mkPlan, hm, List.filter_append, filter_email_map, isLambdaSub]
    · simp [mkPlan, hm]
    · simp [mkPlan, hm]
  · intro hm
    refine ⟨?_, ?_, ?_⟩
    · simp [mkPlan, hm, List.filter_append, filter_email_map, isLambdaSub]
    · simp [mkPlan, hm]
    · simp [mkPlan, hm]

/-- C3 witness: archive flag on and off at concrete configurations. -/
theorem C3_archive_witness :
    (mkPlan cfgBase vpcBase envBase).topicSubscriptions.filter isLambdaSub =
      [Subscriber.lambdaFn "archiveFnc"] ∧
    (mkPlan cfgBase vpcBase envBase).archiveGrants =
      [ Grant.mk BucketRef.archiveBucket GrantAccess.put
      , Grant.mk BucketRef.sftpBucket GrantAccess.readWrite ] ∧
    (mkPlan cfgNoArch vpcBase envBase).archiveBucketName = none ∧
    (mkPlan cfgNoArch vpcBase envBase).topicSubscriptions.filter isLambdaSub = [] := by
  have hA := (C3_archive cfgBase vpcBase envBase (mkPlan cfgBase vpcBase envBase) rfl).1 rfl
  have hB := (C3_archive cfgNoArch vpcBase envBase (mkPlan cfgNoArch vpcBase envBase) rfl).2 rfl
  exact ⟨hA.1, hA.2.2.1, hB.2.1, hB.1⟩

/-- C3 counterexample to the claim as stated: the grant the planner issues
on the primary storage bucket for the archival handler is grantReadWrite,
which allows writing — so the handler is not scoped to read-only on the
primary bucket. -/
theorem C3_cex :
    plan cfgBase vpcBase envBase = Except.ok planBase ∧
    Grant.mk BucketRef.sftpBucket GrantAccess.readWrite ∈ planBase.archiveGrants ∧
    accessAllowsWrite GrantAccess.readWrite = true := by
  exact ⟨planBase_ok, by decide, rfl⟩

/-- C6: every successful plan outputs the raw endpoint name
'<assigned-id>.server.transfer.<region>.amazonaws.com'; exactly when
custom-hostname mode is enabled the plan also contains an alias record
mapping '<hostname-label>.<zone-name>' to that endpoint name and exposes
the alias as the custom hostname output. -/
theorem C6_endpoint (cfg : Config) (vpc : ResolvedVpc) (env : Env) (p : Plan)
    (h : plan cfg vpc env = Except.ok p) :
    p.domainNameOutput =
      env.serverId ++ ".server.transfer." ++ env.region ++ ".amazonaws.com" ∧
    (cfg.customHostname.useCustomHostname = true →
      p.cnameRecord = some (CnameRec.mk
        (cfg.customHostname.sftpHostname ++ "." ++ cfg.customHostname.dnsAttr.zoneName)
        p.domainNameOutput cfg.customHostname.dnsAttr.zoneName) ∧
      p.customHostnameOutput =
        some (cfg.customHostname.sftpHostname ++ "." ++ cfg.customHostname.dnsAttr.zoneName)) ∧
    (cfg.customHostname.useCustomHostname = false →
      p.cnameRecord = none ∧ p.customHostnameOutput = none) := by
  rw [plan_ok_elim h]
  refine ⟨rfl, ?_, ?_⟩
  · intro hc
    constructor <;> simp [mkPlan, hc]
  · intro hc
    constructor <;> simp [mkPlan, hc]

/-- C6 witness: custom hostname on and off at concrete configurations. -/
theorem C6_endpoint_witness :
    (mkPlan cfgBase vpcBase envBase).domainNameOutput =
      "s-123" ++ ".server.transfer." ++ "us-east-1" ++ ".amazonaws.com" ∧
    (mkPlan cfgBase vpcBase envBase).cnameRecord =
      some (CnameRec.mk ("sftp" ++ "." ++ "example.com")
        (mkPlan cfgBase vpcBase envBase).domainNameOutput "example.com") ∧
    (mkPlan cfgNoHost vpcBase envBase).cnameRecord = none := by
  have hA := C6_endpoint cfgBase vpcBase envBase (mkPlan cfgBase vpcBase envBase) rfl
  have hB := C6_endpoint cfgNoHost vpcBase envBase (mkPlan cfgNoHost vpcBase envBase) rfl
  exact ⟨hA.1, (hA.2.1 rfl).1, (hB.2.2 rfl).1⟩

/-- C7: for a successful plan with custom-hostname mode enabled, a
supplied certificate reference is bound as-is; otherwise exactly one new
wildcard certificate for '*.<zone-name>' is requested with DNS validation
against the resolved zone — a binary choice. -/
theorem C7_certificate (cfg : Config) (vpc : ResolvedVpc) (env : Env) (p : Plan)
    (h : plan cfg vpc env = Except.ok p)
    (hOn : cfg.customHostname.useCustomHostname = true) :
    (cfg.customHostname.certificateArn ≠ "" →
      p.certificate = some (Cert.fromArn cfg.customHostname.certificateArn)) ∧
    (cfg.customHostname.certificateArn = "" →
      p.certificate = some (Cert.requested ("*." ++ cfg.customHostname.dnsAttr.zoneName)
        cfg.customHostname.dnsAttr.zoneName)) := by
  rw [plan_ok_elim h]
  constructor
  · intro ha
    simp [mkPlan, hOn, ha]
  · intro ha
    simp [mkPlan, hOn, ha]

/-- C7 witness: with and without a supplied certificate reference. -/
theorem C7_certificate_witness :
    (mkPlan cfgArn vpcBase envBase).certificate =
      some (Cert.fromArn "arn:aws:acm:us-east-1:111122223333:certificate/abc") ∧
    (mkPlan cfgBase vpcBase envBase).certificate =
      some (Cert.requested ("*." ++ "example.com") "example.com") := by
  have hA := C7_certificate cfgArn vpcBase envBase (mkPlan cfgArn vpcBase envBase) rfl rfl
  have hB := C7_certificate cfgBase vpcBase envBase (mkPlan cfgBase vpcBase envBase) rfl rfl
  exact ⟨hA.1 (by decide), hB.2 rfl⟩

/-- C10: every configured user is attached to the same shared role, whose
statements permit s3:ListBucket on all resources and object
put/get/get-version on every object of the primary bucket; the per-user
restriction lives only in the attached session policy template. -/
theorem C10_shared_role (cfg : Config) (vpc : ResolvedVpc) (env : Env) (p : Plan)
    (h : plan cfg vpc env = Except.ok p) :
    p.userRole.id = RoleId.userRole ∧
    p.userRole.statements =
      [ PolicyStmt.mk "List" ["s3:ListBucket"] ["*"]
      , PolicyStmt.mk "UserObjects" ["s3:PutObject", "s3:GetObject", "s3:GetObjectVersion"]
          ["arn:aws:s3:::" ++ env.sftpBucketName ++ "/*"] ] ∧
    (∀ u ∈ p.users, u.role = RoleId.userRole ∧ u.policy = sessionPolicyTemplate) := by
  rw [plan_ok_elim h]
  refine ⟨rfl, rfl, ?_⟩
  intro u hu
  simp [mkPlan] at hu
  obtain ⟨v, hv, rfl⟩ := hu
  exact ⟨rfl, rfl⟩

/-- C10 witness at a concrete configuration with two users. -/
theorem C10_shared_role_witness :
    (mkPlan cfgBase vpcBase envBase).userRole.statements =
      [ PolicyStmt.mk "List" ["s3:ListBucket"] ["*"]
      , PolicyStmt.mk "UserObjects" ["s3:PutObject", "s3:GetObject", "s3:GetObjectVersion"]
          ["arn:aws:s3:::" ++ "bkt" ++ "/*"] ] ∧
    ∀ u ∈ (mkPlan cfgBase vpcBase envBase).users, u.role = RoleId.userRole := by
  have hA := C10_shared_role cfgBase vpcBase envBase (mkPlan cfgBase vpcBase envBase) rfl
  exact ⟨hA.2.1, fun u hu => (hA.2.2 u hu).1⟩

/-! ## Session-policy characterization helpers -/

theorem substT_resource_bucket (bucket u : String) :
    substT (userTransferCtx bucket u) [TToken.lit "arn:aws:s3:::", TToken.homeBucketVar] =
      "arn:aws:s3:::" ++ bucket := by
  apply string_toList_inj
  simp [substT, userTransferCtx, toList_append]

theorem pat1_toList (bucket u : String) :
    (substT (userTransferCtx bucket u)
        [TToken.lit "home/", TToken.userNameVar, TToken.lit "/*"]).toList =
      ("home/" ++ u ++ "/").toList ++ ['*'] := by
  have h1 : "/*".toList = ['/', '*'] := rfl
  have h2 : "/".toList = ['/'] := rfl
  simp [substT, userTransferCtx, toList_append, h1, h2]

theorem pat2_toList (bucket u : String) :
    (substT (userTransferCtx bucket u)
        [TToken.lit "home/", TToken.userNameVar]).toList =
      ("home/" ++ u).toList := by
  simp [substT, userTransferCtx, toList_append]

theorem objPat_toList (bucket u : String) :
    (substT (userTransferCtx bucket u)
        [TToken.lit "arn:aws:s3:::", TToken.homeDirectoryVar, TToken.lit "*"]).toList =
      ("arn:aws:s3:::/" ++ bucket ++ "/home/" ++ u).toList ++ ['*'] := by
  have h1 : "*".toList = ['*'] := rfl
  have h2 : "arn:aws:s3:::/".toList = "arn:aws:s3:::".toList ++ "/".toList := rfl
  simp [substT, userTransferCtx, homeDirectory, toList_append, h1, h2]

theorem listingAllowed_iff (bucket u pfx : String) (hb : cleanName bucket) (hu : cleanName u) :
    listingAllowed (userTransferCtx bucket u) ("arn:aws:s3:::" ++ bucket) pfx = true ↔
      (("home/" ++ u ++ "/").toList <+: pfx.toList ∨ pfx = "home/" ++ u) := by
  have harn : ∀ c ∈ "arn:aws:s3:::".toList, c ≠ '*' ∧ c ≠ '?' := by decide
  have hhome : ∀ c ∈ "home/".toList, c ≠ '*' ∧ c ≠ '?' := by decide
  have hsl : ∀ c ∈ "/".toList, c ≠ '*' ∧ c ≠ '?' := by decide
  have hlitU : ∀ c ∈ ("home/" ++ u).toList, c ≠ '*' ∧ c ≠ '?' := by
    rw [toList_append]
    exact literal_append hhome (cleanName_literal hu)
  have hlitU2 : ∀ c ∈ ("home/" ++ u ++ "/").toList, c ≠ '*' ∧ c ≠ '?' := by
    rw [toList_append, toList_append]
    exact literal_append (literal_append hhome (cleanName_literal hu)) hsl
  have hres : stringLike
      (substT (userTransferCtx bucket u) [TToken.lit "arn:aws:s3:::", TToken.homeBucketVar])
      ("arn:aws:s3:::" ++ bucket) = true := by
    rw [substT_resource_bucket]
    unfold stringLike
    refine (globMatch_literal ?_).mpr rfl
    rw [toList_append]
    exact literal_append harn (cleanName_literal hb)
  have hpat1 : stringLike
      (substT (userTransferCtx bucket u)
        [TToken.lit "home/", TToken.userNameVar, TToken.lit "/*"]) pfx = true ↔
      ("home/" ++ u ++ "/").toList <+: pfx.toList := by
    unfold stringLike
    rw [pat1_toList]
    exact globMatch_litStar hlitU2
  have hpat2 : stringLike
      (substT (userTransferCtx bucket u)
        [TToken.lit "home/", TToken.userNameVar]) pfx = true ↔
      pfx = "home/" ++ u := by
    unfold stringLike
    rw [pat2_toList]
    rw [globMatch_literal hlitU]
    constructor
    · intro h
      exact (string_toList_inj h).symm
    · intro h
      rw [h]
  have hc2 : (["s3:PutObject", "s3:GetObject", "s3:GetObjectVersion"].contains
      "s3:ListBucket") = false := rfl
  unfold listingAllowed stmtMatchesList
  simp only [sessionPolicyTemplate, List.any_cons, List.any_nil, Bool.or_false, hres, hc2,
    Bool.false_and, Bool.and_true, Bool.true_and, Bool.and_false]
  have hc1 : (["s3:ListBucket"].contains "s3:ListBucket") = true := rfl
  simp only [hc1, Bool.true_and]
  rw [Bool.or_eq_true]
  rw [hpat1, hpat2]

theorem objectAllowed_iff (bucket u act arn : String) (hb : cleanName bucket)
    (hu : cleanName u)
    (hact : act ∈ ["s3:PutObject", "s3:GetObject", "s3:GetObjectVersion"]) :
    objectActionAllowed (userTransferCtx bucket u) act arn = true ↔
      ("arn:aws:s3:::/" ++ bucket ++ "/home/" ++ u).toList <+: arn.toList := by
  have harn2 : ∀ c ∈ "arn:aws:s3:::/".toList, c ≠ '*' ∧ c ≠ '?' := by decide
  have hhd : ∀ c ∈ "/home/".toList, c ≠ '*' ∧ c ≠ '?' := by decide
  have hlit : ∀ c ∈ ("arn:aws:s3:::/" ++ bucket ++ "/home/" ++ u).toList,
      c ≠ '*' ∧ c ≠ '?' := by
    rw [toList_append, toList_append, toList_append]
    exact literal_append (literal_append (literal_append harn2 (cleanName_literal hb)) hhd)
      (cleanName_literal hu)
  have hpat : stringLike (substT (userTransferCtx bucket u)
      [TToken.lit "arn:aws:s3:::", TToken.homeDirectoryVar, TToken.lit "*"]) arn = true ↔
      ("arn:aws:s3:::/" ++ bucket ++ "/home/" ++ u).toList <+: arn.toList := by
    unfold stringLike
    rw [objPat_toList]
    exact globMatch_litStar hlit
  simp only [List.mem_cons, List.mem_singleton, List.not_mem_nil, or_false] at hact
  have hcont : (["s3:PutObject", "s3:GetObject", "s3:GetObjectVersion"].contains act) = true := by
    rcases hact with rfl | rfl | rfl <;> rfl
  have hc1 : (["s3:ListBucket"].contains act) = false := by
    rcases hact with rfl | rfl | rfl <;> rfl
  unfold objectActionAllowed stmtMatchesObject
  simp only [sessionPolicyTemplate, List.any_cons, List.any_nil, Bool.or_false, hcont, hc1,
    Option.isNone_some, Option.isNone_none, Bool.and_false, Bool.false_and, Bool.true_and,
    Bool.and_true, Bool.false_or]
  exact hpat

theorem listing_cross_false (bucket u v s : String) (hb : cleanName bucket)
    (hu : cleanName u) (hv : cleanName v) (huv : u ≠ v) :
    listingAllowed (userTransferCtx bucket u) ("arn:aws:s3:::" ++ bucket)
      ("home/" ++ v ++ "/" ++ s) = false := by
  have hsl : "/".toList = ['/'] := rfl
  cases hla : listingAllowed (userTransferCtx bucket u) ("arn:aws:s3:::" ++ bucket)
      ("home/" ++ v ++ "/" ++ s) with
  | false => rfl
  | true =>
    exfalso
    rcases (listingAllowed_iff bucket u _ hb hu).mp hla with hpre | heq
    · simp only [toList_append, List.append_assoc, hsl, List.singleton_append] at hpre
      rw [ List.prefix_append_right_inj] at hpre
      have heq2 := noSlashPrefixEq u.toList v.toList s.toList
        (cleanName_noSlash hu) (cleanName_noSlash hv) (by simpa using hpre)
      exact huv (string_toList_inj heq2)
    · have htl := congrArg String.toList heq
      simp only [toList_append, List.append_assoc, hsl, List.singleton_append] at htl
      have htl2 := List.append_cancel_left htl
      have hm : '/' ∈ u.toList := by
        rw [← htl2]
        simp
      exact cleanName_noSlash hu hm

theorem object_cross_false (bucket u v k act : String) (hb : cleanName bucket)
    (hu : cleanName u) (hnp : ¬ (u.toList <+: v.toList))
    (hact : act ∈ ["s3:PutObject", "s3:GetObject", "s3:GetObjectVersion"]) :
    objectActionAllowed (userTransferCtx bucket u) act
      ("arn:aws:s3:::/" ++ bucket ++ "/home/" ++ v ++ "/" ++ k) = false := by
  have hsl : "/".toList = ['/'] := rfl
  cases hx : objectActionAllowed (userTransferCtx bucket u) act
      ("arn:aws:s3:::/" ++ bucket ++ "/home/" ++ v ++ "/" ++ k) with
  | false => rfl
  | true =>
    exfalso
    have hpre := (objectAllowed_iff bucket u act _ hb hu hact).mp hx
    simp only [toList_append, List.append_assoc, hsl, List.singleton_append] at hpre
    rw [ List.prefix_append_right_inj, List.prefix_append_right_inj,
      List.prefix_append_right_inj] at hpre
    exact hnp (noSlashPrefixOf (cleanName_noSlash hu) hpre)

/-- C1 (amended): the planner emits exactly one user entry per configured
user, with home directory '/<bucket>/home/<user>' and the session policy
template attached; for users whose names contain no wildcard ('*', '?')
and no '/', the generated policy permits s3:ListBucket on exactly the home
bucket under exactly the prefixes 'home/U/*' and 'home/U' — never the
bucket root and never 'home/V/*' for a different such user V — and
permits object put/get/get-version exactly on ARNs extending the
home-directory prefix, which excludes every object under 'home/V/*'
provided additionally that U's name is not a string prefix of V's name. -/
theorem C1_user_policy (cfg : Config) (vpc : ResolvedVpc) (env : Env) (p : Plan)
    (bucket u v pfx s arn k act : String) :
    (plan cfg vpc env = Except.ok p →
      p.users = cfg.users.map (fun usr =>
        PlannedUser.mk usr.userName RoleId.userRole
          ("/" ++ env.sftpBucketName ++ "/home/" ++ usr.userName) [usr.publicKey]
          sessionPolicyTemplate)) ∧
    (substT (userTransferCtx bucket u) [TToken.lit "arn:aws:s3:::", TToken.homeBucketVar] =
      "arn:aws:s3:::" ++ bucket) ∧
    (cleanName bucket → cleanName u →
      (listingAllowed (userTransferCtx bucket u) ("arn:aws:s3:::" ++ bucket) pfx = true ↔
        (("home/" ++ u ++ "/").toList <+: pfx.toList ∨ pfx = "home/" ++ u))) ∧
    (cleanName bucket → cleanName u →
      listingAllowed (userTransferCtx bucket u) ("arn:aws:s3:::" ++ bucket) "" = false) ∧
    (cleanName bucket → cleanName u → cleanName v → u ≠ v →
      listingAllowed (userTransferCtx bucket u) ("arn:aws:s3:::" ++ bucket)
        ("home/" ++ v ++ "/" ++ s) = false) ∧
    (cleanName bucket → cleanName u →
      act ∈ ["s3:PutObject", "s3:GetObject", "s3:GetObjectVersion"] →
      (objectActionAllowed (userTransferCtx bucket u) act arn = true ↔
        ("arn:aws:s3:::/" ++ bucket ++ "/home/" ++ u).toList <+: arn.toList)) ∧
    (cleanName bucket → cleanName u → ¬ (u.toList <+: v.toList) →
      act ∈ ["s3:PutObject", "s3:GetObject", "s3:GetObjectVersion"] →
      objectActionAllowed (userTransferCtx bucket u) act
        ("arn:aws:s3:::/" ++ bucket ++ "/home/" ++ v ++ "/" ++ k) = false) := by
  refine ⟨?_, substT_resource_bucket bucket u, ?_, ?_, ?_, ?_, ?_⟩
  · intro h
    rw [plan_ok_elim h]
    rfl
  · intro hb hu
    exact listingAllowed_iff bucket u pfx hb hu
  · intro hb hu
    cases hla : listingAllowed (userTransferCtx bucket u) ("arn:aws:s3:::" ++ bucket) "" with
    | false => rfl
    | true =>
      exfalso
      rcases (listingAllowed_iff bucket u "" hb hu).mp hla with hpre | heq
      · have h0 : ("home/" ++ u ++ "/").toList = [] := List.prefix_nil.mp hpre
        rw [toList_append, toList_append] at h0
        rcases List.append_eq_nil.mp h0 with ⟨h1, -⟩
        rcases List.append_eq_nil.mp h1 with ⟨h2, -⟩
        exact absurd h2 (by decide)
      · have htl := congrArg String.toList heq
        rw [toList_append] at htl
        have htl2 : "home/".toList ++ u.toList = [] := htl.symm
        rcases List.append_eq_nil.mp htl2 with ⟨h2, -⟩
        exact absurd h2 (by decide)
  · intro hb hu hv huv
    exact listing_cross_false bucket u v s hb hu hv huv
  · intro hb hu hact
    exact objectAllowed_iff bucket u act arn hb hu hact
  · intro hb hu hnp hact
    exact object_cross_false bucket u v k act hb hu hnp hact

/-- C1 witness at bucket 'bkt', user 'alice' and the unrelated user 'bob':
one planned entry per user with the fixed home path; listing allowed under
alice's own prefix, refused at the bucket root and under bob's prefix;
object access allowed inside alice's home-directory prefix and refused
under bob's. -/
theorem C1_user_policy_witness :
    (planBase.users = cfgBase.users.map (fun usr =>
      PlannedUser.mk usr.userName RoleId.userRole
        ("/" ++ envBase.sftpBucketName ++ "/home/" ++ usr.userName) [usr.publicKey]
        sessionPolicyTemplate)) ∧
    listingAllowed (userTransferCtx "bkt" "alice") ("arn:aws:s3:::" ++ "bkt")
      "home/alice/a.txt" = true ∧
    listingAllowed (userTransferCtx "bkt" "alice") ("arn:aws:s3:::" ++ "bkt") "" = false ∧
    listingAllowed (userTransferCtx "bkt" "alice") ("arn:aws:s3:::" ++ "bkt")
      ("home/" ++ "bob" ++ "/" ++ "x.txt") = false ∧
    objectActionAllowed (userTransferCtx "bkt" "alice") "s3:GetObject"
      "arn:aws:s3:::/bkt/home/alice/a.txt" = true ∧
    objectActionAllowed (userTransferCtx "bkt" "alice") "s3:GetObject"
      ("arn:aws:s3:::/" ++ "bkt" ++ "/home/" ++ "bob" ++ "/" ++ "x.txt") = false := by
  have hC := C1_user_policy cfgBase vpcBase envBase planBase "bkt" "alice" "bob"
    "home/alice/a.txt" "x.txt" "arn:aws:s3:::/bkt/home/alice/a.txt" "x.txt" "s3:GetObject"
  refine ⟨hC.1 planBase_ok, ?_, hC.2.2.2.1 (by decide) (by decide),
    hC.2.2.2.2.1 (by decide) (by decide) (by decide) (by decide), ?_,
    hC.2.2.2.2.2.2 (by decide) (by decide) (by decide) (by decide)⟩
  · exact (hC.2.2.1 (by decide) (by decide)).mpr (Or.inl ⟨"a.txt".toList, by decide⟩)
  · exact (hC.2.2.2.2.2.1 (by decide) (by decide) (by decide)).mpr
      ⟨"/a.txt".toList, by decide⟩

/-- C1 counterexample to the claim as stated: although both names are
plain, user 'ali' is a string prefix of user 'alice', and the object
statement's resource pattern 'arn:aws:s3:::${transfer:HomeDirectory}*'
then matches objects under alice's home prefix — the policy generated for
'ali' grants s3:GetObject on an object below 'home/alice/'. -/
theorem C1_cex :
    cleanName "ali" ∧ cleanName "alice" ∧ ("ali" : String) ≠ "alice" ∧
    objectActionAllowed (userTransferCtx "bkt" "ali") "s3:GetObject"
      "arn:aws:s3:::/bkt/home/alice/secret" = true := by
  refine ⟨by decide, by decide, by decide, by decide⟩

/-- C9 witness: a Delete event with empty fields still succeeds, an
unknown RequestType fails with 'Invalid RequestType', and a Create event
that fails the serverId check is indeed a Create or Update event. -/
theorem C9_delete_before_checks_witness :
    hkHandler id id (HKEvent.mk "Delete" "pid" "rid" "" "" "") =
      Except.ok (HKResult.mk "pid" [] []) ∧
    hkHandler id id (HKEvent.mk "Bogus" "pid" "rid" "s-1" "arn-1" "v1") =
      Except.error "Invalid RequestType" ∧
    ((HKEvent.mk "Create" "pid" "rid" "" "a" "v").RequestType = "Create" ∨
      (HKEvent.mk "Create" "pid" "rid" "" "a" "v").RequestType = "Update") := by
  refine ⟨?_, ?_, ?_⟩
  · exact (C9_delete_before_checks id id (HKEvent.mk "Delete" "pid" "rid" "" "" "")).1 rfl
  · exact (C9_delete_before_checks id id
      (HKEvent.mk "Bogus" "pid" "rid" "s-1" "arn-1" "v1")).2.1
      (by decide) (by decide) (by decide)
  · exact (C9_delete_before_checks id id (HKEvent.mk "Create" "pid" "rid" "" "a" "v")).2.2
      (Or.inl rfl)
